import Mathlib

/-!
# Bitbucket Cloud HTTP transport (`engine/vcs/bitbucketcloud/http.go`)

A shallow embedding of the request / authentication / status-classification
pipeline of the Bitbucket Cloud client, followed by the properties proved about it.

Conventions of the embedding

* Go `string` and `[]byte` values are Lean `String`s (their bytes are the UTF-8
  encoding); a `[]byte` that may be `nil` is an `Option String`.
* Go `int` is `Int`.
* `error` results are `Option (Err E)` (`none` is `nil`); the error values are
  kept symbolic: each constructor of `Err` records which call built the error.
* The call `httpClient.Do` is the function `Env.httpDo`: its answer to a request may
  depend on every request handed to it before. Each operation receives the requests
  handed over so far and returns them extended by its own. What the shared client
  does inside one call (it follows redirects itself) is `clientDo`, and `clientEnv`
  is an environment whose `httpDo` is that client over a wire.
* Functions of libraries outside the package (`net/url`, `url.Values.Encode`,
  JSON decoding) and the package constant `rootURL` are fields of `Env`; the header
  operations and `SetBasicAuth` of `net/http` are written out.
* Each operation that sends a request is split in two: `xReq` is the part of `x` up
  to the call of `httpClient.Do` (the request as built, or the error that ends the
  call before anything is sent), and `x` hands that request to the transport.
* `get` calls itself on a redirect, without a bound in the source; the model takes
  a bound on the number of requests and returns `none` when it is exhausted.
* `context.Context` arguments and `log.Debug` / `log.Warn` calls have no effect on
  the results and are left out; `do` is named `do_`.
-/

namespace Bitbucketcloud

/-! ## Bytes and base64 (`encoding/base64`, standard alphabet with padding) -/

/-- UTF-8 encoding of one character, as a list of byte values. -/
def utf8Bytes (c : Char) : List Nat :=
  let n := c.toNat
  if n < 128 then [n]
  else if n < 2048 then [192 + n / 64, 128 + n % 64]
  else if n < 65536 then [224 + n / 4096, 128 + (n / 64) % 64, 128 + n % 64]
  else [240 + n / 262144, 128 + (n / 4096) % 64, 128 + (n / 64) % 64, 128 + n % 64]

/-- The bytes of a Go string. -/
def bytesOf (s : String) : List Nat :=
  s.data.flatMap utf8Bytes

/-- The character of the standard base64 alphabet for a six-bit value. -/
def b64Char (n : Nat) : Char :=
  if n < 26 then Char.ofNat (65 + n)
  else if n < 52 then Char.ofNat (97 + (n - 26))
  else if n < 62 then Char.ofNat (48 + (n - 52))
  else if n = 62 then '+'
  else '/'

/-- Standard base64 of a byte sequence: `base64.StdEncoding.EncodeToString`. -/
def b64Encode : List Nat → List Char
  | [] => []
  | [a] => [b64Char (a / 4), b64Char ((a % 4) * 16), '=', '=']
  | [a, b] => [b64Char (a / 4), b64Char ((a % 4) * 16 + b / 16), b64Char ((b % 16) * 4), '=']
  | a :: b :: c :: rest =>
    b64Char (a / 4) :: b64Char ((a % 4) * 16 + b / 16) :: b64Char ((b % 16) * 4 + c / 64)
      :: b64Char (c % 64) :: b64Encode rest

/-- The credentials string of `net/http`: `basicAuth(username, password)`. -/
def basicAuth (username password : String) : String :=
  String.mk (b64Encode (bytesOf (username ++ ":" ++ password)))

/-- Go `strings.HasPrefix`, on the characters of the two strings. -/
def startsWith (s p : String) : Bool :=
  p.data.isPrefixOf s.data

/-! ## HTTP headers (`net/http.Header`, `net/textproto`) -/

/-- Bytes allowed in a header field name (`validHeaderFieldByte`): the token
characters of RFC 7230. -/
def validHeaderFieldByte (c : Char) : Bool :=
  c.isAlphanum ||
    [33, 35, 36, 37, 38, 39, 42, 43, 45, 46, 94, 95, 96, 124, 126].contains c.toNat

/-- The capitalisation pass of `canonicalMIMEHeaderKey`: `upper` says whether the
next letter starts a word. -/
def canonLoop : Bool → List Char → List Char
  | _, [] => []
  | upper, c :: cs =>
    let c1 := if upper && c.isLower then c.toUpper
      else if !upper && c.isUpper then c.toLower else c
    c1 :: canonLoop (c1 == '-') cs

/-- Canonical form of a header key, `textproto.CanonicalMIMEHeaderKey`: a key with a
byte that is not a token character is returned unchanged. -/
def canonicalMIMEHeaderKey (s : String) : String :=
  if s.data.all validHeaderFieldByte then String.mk (canonLoop true s.data) else s

/-- Replace, or append, the values stored under a key. -/
def setEntry (k : String) (vs : List String) :
    List (String × List String) → List (String × List String)
  | [] => [(k, vs)]
  | (k1, vs1) :: rest =>
    if k1 = k then (k, vs) :: rest else (k1, vs1) :: setEntry k vs rest

/-- The values stored under a key, `nil` (empty) when the key is absent. -/
def lookupEntry (k : String) : List (String × List String) → List String
  | [] => []
  | (k1, vs1) :: rest => if k1 = k then vs1 else lookupEntry k rest

/-- A header map `map[string][]string`, as an association list. -/
structure Header where
  entries : List (String × List String)
  deriving DecidableEq, Repr

namespace Header

/-- The empty header `http.Header{}`. -/
def empty : Header := ⟨[]⟩

/-- The method `Header.Values`: all values of the canonicalised key. -/
def Values (h : Header) (key : String) : List String :=
  lookupEntry (canonicalMIMEHeaderKey key) h.entries

/-- The method `Header.Get`: the first value of the canonicalised key, or the empty string. -/
def Get (h : Header) (key : String) : String :=
  match h.Values key with
  | [] => ""
  | v :: _ => v

/-- The method `Header.Set`: the key holds exactly the given value afterwards. -/
def Set (h : Header) (key value : String) : Header :=
  ⟨setEntry (canonicalMIMEHeaderKey key) [value] h.entries⟩

/-- The method `Header.Add`: the value is appended to the values of the key. -/
def Add (h : Header) (key value : String) : Header :=
  ⟨setEntry (canonicalMIMEHeaderKey key) (h.Values key ++ [value]) h.entries⟩

end Header

/-! ## URLs, requests, responses -/

/-- A `url.Values` / `map[string][]string` argument. -/
abbrev Values := List (String × List String)

/-- The fields of `url.URL` that the package reads or writes. -/
structure URL where
  Scheme : String
  Host : String
  Path : String
  RawQuery : String
  Fragment : String
  deriving DecidableEq, Repr

/-- An `io.Reader` handed over as a request body: the bytes it yields, and whether
its dynamic type is one whose length `net/http` knows (`*bytes.Buffer`,
`*bytes.Reader`, `*strings.Reader`). -/
structure Reader where
  data : String
  sized : Bool
  deriving DecidableEq, Repr

/-- The fields of `http.Request` that the package sets, directly or through
`http.NewRequest`. `Body` holds the bytes of the body, `none` for a nil body. -/
structure Request where
  Method : String
  URL : Bitbucketcloud.URL
  Proto : String
  ProtoMajor : Int
  ProtoMinor : Int
  Close : Bool
  Host : String
  Header : Bitbucketcloud.Header
  Body : Option String
  ContentLength : Int
  deriving DecidableEq, Repr

/-- An `http.Response`: `Body` is what `io.ReadAll(res.Body)` yields, the bytes or a
read error. -/
structure Response where
  StatusCode : Int
  Header : Bitbucketcloud.Header
  Body : Except String String

/-- The method `Request.SetBasicAuth`: sets the `Authorization` header to `Basic` credentials. -/
def Request.SetBasicAuth (req : Request) (username password : String) : Request :=
  { req with Header := req.Header.Set "Authorization" ("Basic " ++ basicAuth username password) }

/-! ## Errors -/

/-- The `sdk.Error` values this file refers to. -/
inductive SdkError where
  | ErrWrongRequest
  | ErrNotFound
  | ErrForbidden
  | ErrUnauthorized
  deriving DecidableEq, Repr

/-- Error values, by the call that builds them. `E` is the package type `Error`, the
decoded error body of the API. -/
inductive Err (E : Type) where
  /-- An error returned by a library outside the package (URL parsing, transport,
  reading a body, JSON decoding), with its message. -/
  | ext (msg : String)
  /-- The value of `errors.New(msg)`. -/
  | New (msg : String)
  /-- The value of `fmt.Errorf`, with the formatted message. -/
  | Errorf (msg : String)
  /-- An `sdk.Error` value used as an error. -/
  | sdk (e : SdkError)
  /-- The package variable `ErrorUnauthorized`. -/
  | ErrorUnauthorized
  /-- A decoded `Error` value of the package, returned as an error. -/
  | api (e : E)
  /-- The value of `sdk.NewError(httpError, cause)`. -/
  | NewError (httpError : SdkError) (cause : Err E)
  /-- The value of `sdk.WithStack(e)` for a non-nil `e`. -/
  | WithStack (e : Err E)
  /-- The value of `sdk.WrapError(e, msg)`. -/
  | WrapError (e : Err E) (msg : String)
  deriving DecidableEq, Repr

/-- The `sdk.Error` an error is built around, if any: the kind by which callers
classify it. `sdk.NewError` installs its first argument, `sdk.WithStack` and
`sdk.WrapError` keep the kind of the error they wrap. -/
def Err.httpError {E : Type} : Err E → Option SdkError
  | .sdk e => some e
  | .NewError h _ => some h
  | .WithStack e => e.httpError
  | .WrapError e _ => e.httpError
  | _ => none

/-- Modelled from the spec: `sdk.WithStack` is not among the sources; it is applied
to the result of the JSON decoder, and a successful decode yields no error, so `nil`
stays `nil` and any other error is wrapped. -/
def WithStack {E : Type} (e : Option (Err E)) : Option (Err E) :=
  e.map Err.WithStack

/-! ## The environment of the client -/

/-- What the package takes from outside this file: the constant `rootURL`, the
functions of `net/url`, the shared `httpClient`, and the JSON decoder at the type of
the package's `Error`. -/
structure Env (E : Type) where
  /-- The package constant `rootURL`. -/
  rootURL : String
  /-- The function `url.Parse`. -/
  urlParse : String → Except String URL
  /-- The function `url.ParseRequestURI`. -/
  urlParseRequestURI : String → Except String URL
  /-- The method `(*url.URL).String`. -/
  urlString : URL → String
  /-- The method `url.Values.Encode`. -/
  valuesEncode : Values → String
  /-- The call `httpClient.Do`: given the requests sent so far and the request, a response or
  a transport error. -/
  httpDo : List Request → Request → Except String Response
  /-- The call of `sdk.JSONUnmarshal` into a zero `Error` value: the decoded value, or `none`
  when decoding fails. -/
  unmarshalError : String → Option E

/-- The fields of `bitbucketcloudClient` read by the transport. -/
structure Client where
  username : String
  appPassword : String
  OAuthToken : String
  deriving DecidableEq, Repr

/-- The fields of `bitbucketcloudConsumer` read by `postForm`. -/
structure Consumer where
  ClientID : String
  ClientSecret : String
  deriving DecidableEq, Repr

/-- The type `postOptions`. -/
structure postOptions where
  skipDefaultBaseURL : Bool
  asUser : Bool
  deriving DecidableEq, Repr

/-- Index of the last occurrence of a character, or -1 (`strings.LastIndex` for a
one-byte separator, up to the unit of the index). -/
def lastIndex (c : Char) (s : String) : Int :=
  (s.data.enum.foldl (fun acc ix => if ix.2 = c then (ix.1 : Int) else acc) (-1))

/-- The function `removeEmptyPort` of `net/http`: a host that ends in a colon after its
last bracket loses that colon. -/
def removeEmptyPort (host : String) : String :=
  if lastIndex ':' host > lastIndex ']' host ∧ host.data.getLast? = some ':' then
    String.mk host.data.dropLast
  else host

/-- The function `http.NewRequest(method, url, body)` for the method constants the package uses
(all valid): it fails exactly when `url.Parse` fails, and otherwise yields an
HTTP/1.1 request with an empty header, the host of the URL, and the content length
of a body of known length. -/
def NewRequest {E : Type} (env : Env E) (method url : String) (body : Option Reader) :
    Except (Err E) Request :=
  match env.urlParse url with
  | .error e => .error (.ext e)
  | .ok u => .ok
      { Method := method, URL := { u with Host := removeEmptyPort u.Host },
        Proto := "HTTP/1.1", ProtoMajor := 1, ProtoMinor := 1, Close := false,
        Host := removeEmptyPort u.Host, Header := Header.empty,
        Body := body.map (fun r => r.data),
        ContentLength := match body with
          | some r => if r.sized then (r.data.utf8ByteSize : Int) else 0
          | none => 0 }

/-- The method `setAuth`: the error result and the request as left by the call. -/
def setAuth {E : Type} (client : Client) (req : Request) : Option (Err E) × Request :=
  if client.appPassword ≠ "" ∧ client.username ≠ "" then
    (none, req.SetBasicAuth client.username client.appPassword)
  else if client.OAuthToken ≠ "" then
    (none, { req with Header := req.Header.Add "Authorization" ("Bearer " ++ client.OAuthToken) })
  else
    (some (.NewError .ErrWrongRequest
      (.New "invalid configuration - bitbucketcloud authentication")), req)

/-- The error value `setAuth` returns when no credentials are usable. -/
def invalidConfiguration {E : Type} : Err E :=
  .NewError .ErrWrongRequest (.New "invalid configuration - bitbucketcloud authentication")

/-! ## The operations -/

/-- Lines 80-89 of `post`: the request as built and authenticated, before it is
handed to `httpClient.Do`. -/
def postReq {E : Type} (env : Env E) (client : Client) (path bodyType : String)
    (body : Option Reader) : Except (Err E) Request :=
  match NewRequest env "POST" (env.rootURL ++ path) body with
  | .error e => .error e
  | .ok req =>
    let req := { req with Header := req.Header.Set "Content-Type" bodyType }
    let req := { req with Header := req.Header.Add "Accept" "application/json" }
    match setAuth client req with
    | (some e, _) => .error e
    | (none, req) => .ok req

/-- The method `post`: the response or the error, and the requests sent so far. -/
def post {E : Type} (env : Env E) (client : Client) (hist : List Request)
    (path bodyType : String) (body : Option Reader) (_opts : Option postOptions) :
    Except (Err E) Response × List Request :=
  match postReq env client path bodyType body with
  | .error e => (.error e, hist)
  | .ok req =>
    match env.httpDo hist req with
    | .error e => (.error (.ext e), hist ++ [req])
    | .ok res => (.ok res, hist ++ [req])

/-- Lines 97-106 of `put`: the request as built and authenticated. -/
def putReq {E : Type} (env : Env E) (client : Client) (path bodyType : String)
    (body : Option Reader) : Except (Err E) Request :=
  match NewRequest env "PUT" (env.rootURL ++ path) body with
  | .error e => .error e
  | .ok req =>
    let req := { req with Header := req.Header.Set "Content-Type" bodyType }
    let req := { req with Header := req.Header.Add "Accept" "application/json" }
    match setAuth client req with
    | (some e, _) => .error e
    | (none, req) => .ok req

/-- The method `put`. -/
def put {E : Type} (env : Env E) (client : Client) (hist : List Request)
    (path bodyType : String) (body : Option Reader) (_opts : Option postOptions) :
    Except (Err E) Response × List Request :=
  match putReq env client path bodyType body with
  | .error e => (.error e, hist)
  | .ok req =>
    match env.httpDo hist req with
    | .error e => (.error (.ext e), hist ++ [req])
    | .ok res => (.ok res, hist ++ [req])

/-- The four results of `get`: status, body, headers, error. -/
structure GetResult (E : Type) where
  status : Int
  body : Option String
  header : Option Header
  err : Option (Err E)
  deriving DecidableEq, Repr

/-- Lines 114-127 of `get`: the request as built and authenticated. -/
def getReq {E : Type} (env : Env E) (client : Client) (path : String) :
    Except (Err E) Request :=
  match env.urlParseRequestURI (env.rootURL ++ path) with
  | .error e => .error (.WithStack (.ext e))
  | .ok callURL =>
    match NewRequest env "GET" (env.urlString callURL) none with
    | .error e => .error (.WithStack e)
    | .ok req =>
      let req := { req with Header := req.Header.Add "Accept" "application/json" }
      match setAuth client req with
      | (some e, _) => .error (.WithStack e)
      | (none, req) => .ok req

/-- The method `get`. The source recurses on a redirect without a bound; the first
argument bounds the number of requests, and the result is `none` when the bound is
reached before the call returns. -/
def get {E : Type} (env : Env E) (client : Client) :
    Nat → List Request → String → Option (GetResult E) × List Request
  | 0, hist, _ => (none, hist)
  | fuel + 1, hist, path =>
    match getReq env client path with
    | .error e => (some ⟨0, none, none, some e⟩, hist)
    | .ok req =>
      match env.httpDo hist req with
      | .error e => (some ⟨0, none, none, some (.ext e)⟩, hist ++ [req])
      | .ok res =>
        if res.StatusCode = 304 then
          (some ⟨res.StatusCode, none, some res.Header, none⟩, hist ++ [req])
        else if (res.StatusCode = 301 ∨ res.StatusCode = 307 ∨ res.StatusCode = 302)
            ∧ res.Header.Get "Location" ≠ "" then
          get env client fuel (hist ++ [req]) (res.Header.Get "Location")
        else if res.StatusCode = 401 then
          (some ⟨res.StatusCode, none, none, some (.WithStack .ErrorUnauthorized)⟩,
            hist ++ [req])
        else
          match res.Body with
          | .error e =>
            (some ⟨res.StatusCode, none, none, some (.WithStack (.ext e))⟩, hist ++ [req])
          | .ok resBody =>
            (some ⟨res.StatusCode, some resBody, some res.Header, none⟩, hist ++ [req])

/-- Lines 157-164 of `delete`: the request as built and authenticated. -/
def deleteReq {E : Type} (env : Env E) (client : Client) (path : String) :
    Except (Err E) Request :=
  match NewRequest env "DELETE" (env.rootURL ++ path) none with
  | .error e => .error (.WithStack e)
  | .ok req =>
    match setAuth client req with
    | (some e, _) => .error e
    | (none, req) => .ok req

/-- The message of the error `delete` returns on a status other than 204. -/
def deleteMessage (status : Int) (path : String) : String :=
  "Bitbucket cloud>delete wrong status code " ++ toString status ++ " on url " ++ path

/-- The method `delete`: the error result (`none` is success). -/
def delete {E : Type} (env : Env E) (client : Client) (hist : List Request)
    (path : String) : Option (Err E) × List Request :=
  match deleteReq env client path with
  | .error e => (some e, hist)
  | .ok req =>
    match env.httpDo hist req with
    | .error e => (some (.WrapError (.ext e) "Cannot do delete request"), hist ++ [req])
    | .ok res =>
      if res.StatusCode ≠ 204 then
        (some (.Errorf (deleteMessage res.StatusCode path)), hist ++ [req])
      else (none, hist ++ [req])

/-- Lines 180-212 of `do`: the request as built, authenticated and given its
content type. -/
def doReq {E : Type} (env : Env E) (client : Client) (method path : String)
    (params : Values) (values : String) : Except (Err E) Request :=
  match env.urlParse (env.rootURL ++ path) with
  | .error e => .error (.WithStack (.ext e))
  | .ok uri =>
    let uri := if params.length > 0 then { uri with RawQuery := env.valuesEncode params }
      else uri
    let req : Request :=
      { URL := uri, Method := method, Proto := "", ProtoMajor := 1, ProtoMinor := 1,
        Close := true, Host := "", Header := Header.empty, Body := none,
        ContentLength := 0 }
    let req := if values.utf8ByteSize > 0 then
        { req with Body := some values, ContentLength := values.utf8ByteSize }
      else req
    match setAuth client req with
    | (some e, _) => .error e
    | (none, req) =>
      if (req.Method = "POST" ∨ req.Method = "PUT")
          ∧ (req.Header.Get "Content-Type").utf8ByteSize = 0 then
        .ok { req with Header := req.Header.Set "Content-Type" "application/json" }
      else .ok req

/-- The results of `do`: the error, and the target value `v` as the call leaves it. -/
structure DoResult (E α : Type) where
  err : Option (Err E)
  v : α
  deriving DecidableEq, Repr

/-- The method `do`. The target `v` has type `α`; `unmarshal body v` is
`sdk.JSONUnmarshal(body, v)` at that type: the decoder's error message, if any, and
the target as the decoder leaves it. The parameter `api` is not used by the
source. -/
def do_ {E α : Type} (env : Env E) (client : Client) (hist : List Request)
    (method _api path : String) (params : Values) (values : String)
    (unmarshal : String → α → Option String × α) (v : α) :
    DoResult E α × List Request :=
  match doReq env client method path params values with
  | .error e => (⟨some e, v⟩, hist)
  | .ok req =>
    match env.httpDo hist req with
    | .error e => (⟨some (.WrapError (.ext e) "HTTP Error"), v⟩, hist ++ [req])
    | .ok resp =>
      match resp.Body with
      | .error e => (⟨some (.WithStack (.ext e)), v⟩, hist ++ [req])
      | .ok body =>
        if resp.StatusCode = 404 then (⟨some (.WithStack (.sdk .ErrNotFound)), v⟩, hist ++ [req])
        else if resp.StatusCode = 403 then
          (⟨some (.WithStack (.sdk .ErrForbidden)), v⟩, hist ++ [req])
        else if resp.StatusCode = 401 then
          (⟨some (.WithStack (.sdk .ErrUnauthorized)), v⟩, hist ++ [req])
        else if resp.StatusCode = 400 then
          (⟨some (.WithStack (.sdk .ErrWrongRequest)), v⟩, hist ++ [req])
        else
          (⟨WithStack ((unmarshal body v).1.map Err.ext), (unmarshal body v).2⟩, hist ++ [req])

/-- The three results of `postForm`: status, body, error. -/
structure FormResult (E : Type) where
  status : Int
  body : Option String
  err : Option (Err E)
  deriving DecidableEq, Repr

/-- Lines 26-39 of `postForm`: the request as built. The extra headers are added
in the order of the argument list. -/
def postFormReq {E : Type} (env : Env E) (consumer : Consumer) (url : String)
    (data : Values) (headers : Values) : Except (Err E) Request :=
  match NewRequest env "POST" url (some ⟨env.valuesEncode data, true⟩) with
  | .error e => .error e
  | .ok req =>
    let req := req.SetBasicAuth consumer.ClientID consumer.ClientSecret
    let req := { req with
      Header := req.Header.Set "Content-Type" "application/x-www-form-urlencoded" }
    .ok (headers.foldl
      (fun r kh => kh.2.foldl (fun r v => { r with Header := r.Header.Add kh.1 v }) r) req)

/-- The method `postForm`. -/
def postForm {E : Type} (env : Env E) (consumer : Consumer) (hist : List Request)
    (url : String) (data : Values) (headers : Values) : FormResult E × List Request :=
  match postFormReq env consumer url data headers with
  | .error e => (⟨0, none, some e⟩, hist)
  | .ok req =>
    match env.httpDo hist req with
    | .error e => (⟨0, none, some (.ext e)⟩, hist ++ [req])
    | .ok res =>
      match res.Body with
      | .error e => (⟨res.StatusCode, none, some (.ext e)⟩, hist ++ [req])
      | .ok resBody =>
        if res.StatusCode > 400 then
          match env.unmarshalError resBody with
          | some errBb => (⟨res.StatusCode, some resBody, some (.api errBb)⟩, hist ++ [req])
          | none => (⟨res.StatusCode, some resBody, none⟩, hist ++ [req])
        else (⟨res.StatusCode, some resBody, none⟩, hist ++ [req])

/-! ## The shared client (`net/http`, `Client.Do`)

The variable `httpClient` is an `http.Client`: `Client.Do` sends the request through
the transport of the client and follows redirects itself, before the caller sees a
response. -/

/-- Whether the string holds an ASCII control character (`stringContainsCTLByte`). -/
def containsCTL (s : String) : Bool :=
  s.data.any (fun c => c.toNat < 32 || c.toNat == 127)

/-- Cut a list of characters at the first occurrence of `c`, which is dropped. -/
def cutAt (c : Char) (l : List Char) : List Char × List Char :=
  ((l.span (fun x => x != c)).1, ((l.span (fun x => x != c)).2).drop 1)

/-- The sample parser: `viaRequest` is the mode of `url.ParseRequestURI`, in which
no fragment is split off. -/
def sampleParse (viaRequest : Bool) (s : String) : Except String URL :=
  if containsCTL s then .error "net/url: invalid control character in URL"
  else
    let noFrag := if viaRequest then (s.data, []) else cutAt '#' s.data
    let noQuery := cutAt '?' noFrag.1
    let sch := noQuery.1.span (fun x => x != ':')
    if ['/', '/'].isPrefixOf (sch.2.drop 1) then
      let hostPath := (sch.2.drop 3).span (fun x => x != '/')
      .ok { Scheme := String.mk sch.1, Host := String.mk hostPath.1,
            Path := String.mk hostPath.2, RawQuery := String.mk noQuery.2,
            Fragment := String.mk noFrag.2 }
    else
      .ok { Scheme := "", Host := "", Path := String.mk noQuery.1,
            RawQuery := String.mk noQuery.2, Fragment := String.mk noFrag.2 }

/-- The sample rendering of a URL. -/
def sampleString (u : URL) : String :=
  (if u.Scheme = "" then "" else u.Scheme ++ "://") ++ u.Host ++ u.Path
    ++ (if u.RawQuery = "" then "" else "?" ++ u.RawQuery)
    ++ (if u.Fragment = "" then "" else "#" ++ u.Fragment)

/-- The sample query encoder: `key=value` pairs joined by `&`, for keys and values
that need no escaping. -/
def sampleEncode (vs : Values) : String :=
  "&".intercalate (vs.flatMap (fun kv => kv.2.map (fun v => kv.1 ++ "=" ++ v)))

/-- The sample decoder of API error bodies: a body that opens a JSON object decodes,
to itself. -/
def sampleUnmarshalError (body : String) : Option String :=
  if body.data.head? = some (Char.ofNat 123) then some body else none

/-- The sample environment around a given server, rooted at the Bitbucket API. -/
def sampleEnv (server : List Request → Request → Except String Response) : Env String where
  rootURL := "https://api.bitbucket.org/2.0"
  urlParse := sampleParse false
  urlParseRequestURI := sampleParse true
  urlString := sampleString
  valuesEncode := sampleEncode
  httpDo := server
  unmarshalError := sampleUnmarshalError

/-- A server that answers every request with the given status and body, without
headers. -/
def constServer (status : Int) (body : String) : List Request → Request → Except String Response :=
  fun _ _ => .ok { StatusCode := status, Header := Header.empty, Body := .ok body }

/-- A client with basic credentials only. -/
def basicClient : Client := { username := "user", appPassword := "pass", OAuthToken := "" }

/-- A client with an OAuth token only. -/
def tokenClient : Client := { username := "", appPassword := "", OAuthToken := "tok" }

/-- A client with both kinds of credentials. -/
def bothClient : Client := { username := "user", appPassword := "pass", OAuthToken := "tok" }

/-- A client without credentials. -/
def emptyClient : Client := { username := "", appPassword := "", OAuthToken := "" }

/-- A request as `http.NewRequest` leaves it: a GET with an empty header. -/
def freshRequest : Request :=
  { Method := "GET",
    URL := { Scheme := "https", Host := "api.bitbucket.org", Path := "/2.0/user",
             RawQuery := "", Fragment := "" },
    Proto := "HTTP/1.1", ProtoMajor := 1, ProtoMinor := 1, Close := false,
    Host := "api.bitbucket.org", Header := Header.empty, Body := none,
    ContentLength := 0 }

/-- The request for `/user` under the sample root as `http.NewRequest` builds it,
with the given method and header entries. -/
def userRequest (method : String) (entries : List (String × List String)) : Request :=
  { freshRequest with Method := method, Header := ⟨entries⟩ }

/-- The request for `/user` under the sample root as `do` builds it, with the given
method and header entries. -/
def userRequestOfDo (method : String) (entries : List (String × List String)) : Request :=
  { freshRequest with Method := method, Proto := "", Close := true, Host := "",
                      Header := ⟨entries⟩ }

/-- A JSON decoder for a numeric target: it reads the decimal digits of the body as
the number, and fails on a body without a digit. -/
def digitsUnmarshal (body : String) (v : Nat) : Option String × Nat :=
  match (body.data.filter Char.isDigit) with
  | [] => (some "no number", v)
  | d :: ds => (none, (d :: ds).foldl (fun n c => 10 * n + (c.toNat - 48)) 0)

/-! ## Header lemmas -/

theorem lookupEntry_setEntry_same (k : String) (vs : List String)
    (l : List (String × List String)) : lookupEntry k (setEntry k vs l) = vs := by
  induction l with
  | nil => simp [setEntry, lookupEntry]
  | cons p rest ih =>
    obtain ⟨k1, vs1⟩ := p
    by_cases h : k1 = k
    · simp [setEntry, lookupEntry, h]
    · simp [setEntry, lookupEntry, h, ih]

theorem lookupEntry_setEntry_ne (k k1 : String) (vs : List String)
    (l : List (String × List String)) (hne : k1 ≠ k) :
    lookupEntry k1 (setEntry k vs l) = lookupEntry k1 l := by
  induction l with
  | nil => simp [setEntry, lookupEntry, Ne.symm hne]
  | cons p rest ih =>
    obtain ⟨k2, vs2⟩ := p
    by_cases h : k2 = k
    · subst h
      simp [setEntry, lookupEntry, Ne.symm hne]
    · by_cases h1 : k2 = k1
      · subst h1
        simp [setEntry, lookupEntry, h]
      · simp [setEntry, lookupEntry, h, h1, ih]

theorem Header.Values_Set_same (h : Header) (key value : String) :
    (h.Set key value).Values key = [value] := by
  simp [Header.Set, Header.Values, lookupEntry_setEntry_same]

theorem Header.Values_Add_same (h : Header) (key value : String) :
    (h.Add key value).Values key = h.Values key ++ [value] := by
  simp [Header.Add, Header.Values, lookupEntry_setEntry_same]

theorem Header.Values_Set_ne (h : Header) (key key1 value : String)
    (hne : canonicalMIMEHeaderKey key1 ≠ canonicalMIMEHeaderKey key) :
    (h.Set key value).Values key1 = h.Values key1 := by
  simp [Header.Set, Header.Values, lookupEntry_setEntry_ne _ _ _ _ hne]

theorem Header.Values_Add_ne (h : Header) (key key1 value : String)
    (hne : canonicalMIMEHeaderKey key1 ≠ canonicalMIMEHeaderKey key) :
    (h.Add key value).Values key1 = h.Values key1 := by
  simp [Header.Add, Header.Values, lookupEntry_setEntry_ne _ _ _ _ hne]

theorem Header.Values_empty (key : String) : Header.empty.Values key = [] := rfl

theorem basic_not_bearer (x : String) : startsWith ("Basic " ++ x) "Bearer " = false := by
  simp [startsWith, String.data_append, List.isPrefixOf]

/-! ## Authentication -/

/-- C1. On a freshly built request (one without an `Authorization` value),
`setAuth` returns no error and leaves exactly one `Authorization` value: the Basic
credentials of (username, appPassword) when both are non-empty, whatever the OAuth
token, and then no value is a Bearer header; otherwise, when the OAuth token is
non-empty, the value `Bearer <OAuthToken>`. -/
theorem setAuth_precedence {E : Type} (client : Client) (req : Request)
    (hfresh : req.Header.Values "Authorization" = []) :
    (client.username ≠ "" ∧ client.appPassword ≠ "" →
      (setAuth client req : Option (Err E) × Request).1 = none ∧
      (setAuth client req : Option (Err E) × Request).2.Header.Values "Authorization"
        = ["Basic " ++ basicAuth client.username client.appPassword] ∧
      ∀ v ∈ (setAuth client req : Option (Err E) × Request).2.Header.Values "Authorization",
        startsWith v "Bearer " = false) ∧
    (¬ (client.username ≠ "" ∧ client.appPassword ≠ "") → client.OAuthToken ≠ "" →
      (setAuth client req : Option (Err E) × Request).1 = none ∧
      (setAuth client req : Option (Err E) × Request).2.Header.Values "Authorization"
        = ["Bearer " ++ client.OAuthToken]) := by
  constructor
  · rintro ⟨hu, hp⟩
    have hc : client.appPassword ≠ "" ∧ client.username ≠ "" := ⟨hp, hu⟩
    simp only [setAuth, if_pos hc, Request.SetBasicAuth, Header.Values_Set_same]
    refine ⟨trivial, trivial, ?_⟩
    intro v hv
    rw [List.mem_singleton] at hv
    subst hv
    exact basic_not_bearer _
  · intro hn ht
    have hc : ¬ (client.appPassword ≠ "" ∧ client.username ≠ "") := fun h => hn ⟨h.2, h.1⟩
    simp only [setAuth, if_neg hc, if_pos ht, Header.Values_Add_same, hfresh]
    exact ⟨trivial, rfl⟩

/-- Witness of C1: with both kinds of credentials on a fresh request, the single
`Authorization` value is the Basic one. -/
theorem setAuth_precedence_witness :
    freshRequest.Header.Values "Authorization" = [] ∧
    (bothClient.username ≠ "" ∧ bothClient.appPassword ≠ "") ∧
    (setAuth bothClient freshRequest : Option (Err Unit) × Request).1 = none ∧
    (setAuth bothClient freshRequest : Option (Err Unit) × Request).2.Header.Values
      "Authorization" = ["Basic dXNlcjpwYXNz"] :=
  ⟨rfl, by decide,
    ((setAuth_precedence bothClient freshRequest rfl).1 (by decide)).1,
    ((setAuth_precedence bothClient freshRequest rfl).1 (by decide)).2.1⟩

theorem setAuth_no_credentials {E : Type} (client : Client) (req : Request)
    (hpair : ¬ (client.username ≠ "" ∧ client.appPassword ≠ ""))
    (htok : client.OAuthToken = "") :
    (setAuth client req : Option (Err E) × Request) = (some invalidConfiguration, req) := by
  have hc : ¬ (client.appPassword ≠ "" ∧ client.username ≠ "") := fun h => hpair ⟨h.2, h.1⟩
  simp only [setAuth, if_neg hc, htok, invalidConfiguration]
  simp

/-- C2, as amended. Without usable credentials each of `get`, `post`, `put`,
`delete` and `do` fails and sends nothing (the requests sent so far are returned
unchanged), for every path, method and body. The error is the URL error when the URL
does not parse, and otherwise the error of `setAuth`: `sdk.ErrWrongRequest` wrapping
the message "invalid configuration - bitbucketcloud authentication", whose kind is
`ErrWrongRequest`. -/
theorem no_credentials_never_sent {E α : Type} (env : Env E) (client : Client)
    (hpair : ¬ (client.username ≠ "" ∧ client.appPassword ≠ ""))
    (htok : client.OAuthToken = "")
    (fuel : Nat) (hist : List Request) (method api path bodyType : String)
    (body : Option Reader) (opts : Option postOptions) (params : Values) (values : String)
    (unmarshal : String → α → Option String × α) (v : α) :
    get env client (fuel + 1) hist path =
      (some ⟨0, none, none, some (match env.urlParseRequestURI (env.rootURL ++ path) with
        | .error m => .WithStack (.ext m)
        | .ok u => match env.urlParse (env.urlString u) with
          | .error m => .WithStack (.ext m)
          | .ok _ => .WithStack invalidConfiguration)⟩, hist) ∧
    post env client hist path bodyType body opts =
      (.error (match env.urlParse (env.rootURL ++ path) with
        | .error m => .ext m
        | .ok _ => invalidConfiguration), hist) ∧
    put env client hist path bodyType body opts =
      (.error (match env.urlParse (env.rootURL ++ path) with
        | .error m => .ext m
        | .ok _ => invalidConfiguration), hist) ∧
    delete env client hist path =
      (some (match env.urlParse (env.rootURL ++ path) with
        | .error m => .WithStack (.ext m)
        | .ok _ => invalidConfiguration), hist) ∧
    do_ env client hist method api path params values unmarshal v =
      (⟨some (match env.urlParse (env.rootURL ++ path) with
        | .error m => .WithStack (.ext m)
        | .ok _ => invalidConfiguration), v⟩, hist) ∧
    (invalidConfiguration : Err E).httpError = some SdkError.ErrWrongRequest := by
  refine ⟨?_, ?_, ?_, ?_, ?_, rfl⟩
  · cases h1 : env.urlParseRequestURI (env.rootURL ++ path) with
    | error m => simp [get, getReq, h1]
    | ok u =>
      cases h2 : env.urlParse (env.urlString u) with
      | error m => simp [get, getReq, NewRequest, h1, h2]
      | ok u2 =>
        simp [get, getReq, NewRequest, h1, h2, setAuth_no_credentials _ _ hpair htok]
  · cases h1 : env.urlParse (env.rootURL ++ path) with
    | error m => simp [post, postReq, NewRequest, h1]
    | ok u => simp [post, postReq, NewRequest, h1, setAuth_no_credentials _ _ hpair htok]
  · cases h1 : env.urlParse (env.rootURL ++ path) with
    | error m => simp [put, putReq, NewRequest, h1]
    | ok u => simp [put, putReq, NewRequest, h1, setAuth_no_credentials _ _ hpair htok]
  · cases h1 : env.urlParse (env.rootURL ++ path) with
    | error m => simp [delete, deleteReq, NewRequest, h1]
    | ok u => simp [delete, deleteReq, NewRequest, h1, setAuth_no_credentials _ _ hpair htok]
  · cases h1 : env.urlParse (env.rootURL ++ path) with
    | error m => simp [do_, doReq, h1]
    | ok u => simp [do_, doReq, h1, setAuth_no_credentials _ _ hpair htok]

/-- Witness of C2 as amended: the client without credentials, against a server that
would answer 200, deletes nothing and sends nothing. -/
theorem no_credentials_never_sent_witness :
    (¬ (emptyClient.username ≠ "" ∧ emptyClient.appPassword ≠ "")) ∧
    emptyClient.OAuthToken = "" ∧
    delete (sampleEnv (constServer 200 "")) emptyClient [] "/user"
      = (some invalidConfiguration, []) :=
  ⟨by decide, rfl,
    (no_credentials_never_sent (sampleEnv (constServer 200 "")) emptyClient (by decide) rfl
      0 [] "DELETE" "" "/user" "" none none [] "" digitsUnmarshal 0).2.2.2.1⟩

/-- Counterexample to C2 as stated. The error of a call without credentials has the
kind `ErrWrongRequest`, the very kind `do` gives to a response of status 400: it is
not of a kind apart from the status-classified ones. And for a path with a control
character the call fails with the URL error, not with the configuration error. -/
theorem no_credentials_error_is_wrong_request :
    ((get (sampleEnv (constServer 200 "")) emptyClient 1 [] "/user").1.bind
        (fun r => r.err)).bind Err.httpError = some SdkError.ErrWrongRequest ∧
    ((do_ (sampleEnv (constServer 400 "")) basicClient [] "GET" "" "/user" [] ""
        digitsUnmarshal 0).1.err).bind Err.httpError = some SdkError.ErrWrongRequest ∧
    (get (sampleEnv (constServer 200 "")) emptyClient 1 [] "/us\ner").1.bind
        (fun r => r.err)
      = some (.WithStack (.ext "net/url: invalid control character in URL")) := by
  refine ⟨?_, ?_, ?_⟩ <;> decide

/-! ## Status classification in `do` -/

/-- C3. When the transport answers the request of `do` with a response whose body
reads as `body`, then for every body, every decoder and every target value, `do`
returns the error `ErrWrongRequest` on status 400, `ErrUnauthorized` on 401,
`ErrForbidden` on 403 and `ErrNotFound` on 404; the result does not depend on the
decoder (the body is not decoded, so the error is not a decode error) and the target
value is returned unchanged. -/
theorem do_status_classification {E α : Type} (env : Env E) (client : Client)
    (hist : List Request) (method api path : String) (params : Values) (values : String)
    (unmarshal : String → α → Option String × α) (v : α)
    (req : Request) (resp : Response) (body : String)
    (hreq : doReq env client method path params values = .ok req)
    (hresp : env.httpDo hist req = .ok resp)
    (hbody : resp.Body = .ok body) :
    (resp.StatusCode = 400 →
      do_ env client hist method api path params values unmarshal v
        = (⟨some (.WithStack (.sdk .ErrWrongRequest)), v⟩, hist ++ [req])) ∧
    (resp.StatusCode = 401 →
      do_ env client hist method api path params values unmarshal v
        = (⟨some (.WithStack (.sdk .ErrUnauthorized)), v⟩, hist ++ [req])) ∧
    (resp.StatusCode = 403 →
      do_ env client hist method api path params values unmarshal v
        = (⟨some (.WithStack (.sdk .ErrForbidden)), v⟩, hist ++ [req])) ∧
    (resp.StatusCode = 404 →
      do_ env client hist method api path params values unmarshal v
        = (⟨some (.WithStack (.sdk .ErrNotFound)), v⟩, hist ++ [req])) := by
  refine ⟨?_, ?_, ?_, ?_⟩ <;> intro hs <;> simp [do_, hreq, hresp, hbody, hs]

/-- Witness of C3: a 400 whose body is valid JSON for the numeric target yields
`ErrWrongRequest` and leaves the target at 7. -/
theorem do_status_classification_witness :
    do_ (sampleEnv (constServer 400 "\x7b\"id\":42\x7d")) basicClient [] "GET" "" "/user"
        [] "" digitsUnmarshal 7
      = (⟨some (.WithStack (.sdk .ErrWrongRequest)), 7⟩,
          [userRequestOfDo "GET" [("Authorization", ["Basic dXNlcjpwYXNz"])]]) :=
  (do_status_classification (sampleEnv (constServer 400 "\x7b\"id\":42\x7d")) basicClient []
    "GET" "" "/user" [] "" digitsUnmarshal 7
    (userRequestOfDo "GET" [("Authorization", ["Basic dXNlcjpwYXNz"])])
    { StatusCode := 400, Header := Header.empty, Body := .ok "\x7b\"id\":42\x7d" }
    "\x7b\"id\":42\x7d" rfl rfl rfl).1 rfl

/-- Every status outside 400, 401, 403 and 404 goes to the decoder: the result of
`do` is the result of decoding the body, whatever the status. -/
theorem do_other_status {E α : Type} (env : Env E) (client : Client)
    (hist : List Request) (method api path : String) (params : Values) (values : String)
    (unmarshal : String → α → Option String × α) (v : α)
    (req : Request) (resp : Response) (body : String)
    (hreq : doReq env client method path params values = .ok req)
    (hresp : env.httpDo hist req = .ok resp)
    (hbody : resp.Body = .ok body)
    (h400 : resp.StatusCode ≠ 400) (h401 : resp.StatusCode ≠ 401)
    (h403 : resp.StatusCode ≠ 403) (h404 : resp.StatusCode ≠ 404) :
    do_ env client hist method api path params values unmarshal v
      = (⟨WithStack ((unmarshal body v).1.map Err.ext), (unmarshal body v).2⟩,
          hist ++ [req]) := by
  simp [do_, hreq, hresp, hbody, h400, h401, h403, h404]

/-- C4, at the failing input. A response of status 500 whose body is valid JSON for
the target: `do` returns no error and the decoded value 42. Status 409 behaves the
same. -/
theorem do_status_500_succeeds :
    (do_ (sampleEnv (constServer 500 "\x7b\"id\":42\x7d")) basicClient [] "GET" "" "/user"
        [] "" digitsUnmarshal 0).1 = ⟨none, 42⟩ ∧
    (do_ (sampleEnv (constServer 409 "\x7b\"id\":42\x7d")) basicClient [] "GET" "" "/user"
        [] "" digitsUnmarshal 0).1 = ⟨none, 42⟩ := by
  constructor <;> decide

/-! ## `delete` -/

/-- C5. When the request of `delete` is built (the credentials are usable and the
URL parses) and the transport returns a response, `delete` succeeds if and only if
the status is 204; on every other status it returns the error whose message is
"Bitbucket cloud>delete wrong status code <status> on url <path>". -/
theorem delete_success_iff_204 {E : Type} (env : Env E) (client : Client)
    (hist : List Request) (path : String) (req : Request) (res : Response)
    (hreq : deleteReq env client path = .ok req)
    (hres : env.httpDo hist req = .ok res) :
    ((delete env client hist path).1 = none ↔ res.StatusCode = 204) ∧
    (res.StatusCode ≠ 204 →
      (delete env client hist path).1 = some (.Errorf
        ("Bitbucket cloud>delete wrong status code " ++ toString res.StatusCode
          ++ " on url " ++ path))) := by
  by_cases hs : res.StatusCode = 204
  · simp [delete, hreq, hres, hs]
  · simp [delete, hreq, hres, hs, deleteMessage]

/-- Witness of C5: a `delete` answered by 200 fails, and the message names 200 and
the path. -/
theorem delete_success_iff_204_witness :
    (delete (sampleEnv (constServer 200 "")) basicClient [] "/user").1
      = some (.Errorf "Bitbucket cloud>delete wrong status code 200 on url /user") :=
  (delete_success_iff_204 (sampleEnv (constServer 200 "")) basicClient [] "/user"
    (userRequest "DELETE" [("Authorization", ["Basic dXNlcjpwYXNz"])])
    { StatusCode := 200, Header := Header.empty, Body := .ok "" }
    rfl rfl).2 (by decide)

/-- The request of `delete` is built exactly when the URL parses and the
credentials are usable. -/
theorem deleteReq_ok_iff {E : Type} (env : Env E) (client : Client) (path : String) :
    (∃ req, deleteReq env client path = .ok req) ↔
      (∃ u, env.urlParse (env.rootURL ++ path) = .ok u) ∧
      ((client.username ≠ "" ∧ client.appPassword ≠ "") ∨ client.OAuthToken ≠ "") := by
  cases h1 : env.urlParse (env.rootURL ++ path) with
  | error m => simp [deleteReq, NewRequest, h1]
  | ok u =>
    by_cases hc : client.appPassword ≠ "" ∧ client.username ≠ ""
    · have hc2 : client.username ≠ "" ∧ client.appPassword ≠ "" := ⟨hc.2, hc.1⟩
      simp [deleteReq, NewRequest, h1, setAuth, if_pos hc, hc2]
    · have hc2 : ¬ (client.username ≠ "" ∧ client.appPassword ≠ "") :=
        fun h => hc ⟨h.2, h.1⟩
      by_cases ht : client.OAuthToken ≠ ""
      · simp only [deleteReq, NewRequest, h1, setAuth, if_neg hc, if_pos ht]
        simp [ht]
      · simp only [deleteReq, NewRequest, h1, setAuth, if_neg hc, if_neg ht]
        simp [hc2, ht]

/-! ## `get` -/

/-- C7. When the request of `get` is built and the transport returns a response,
then whatever the body of the response is (readable or not): on status 304 `get`
returns 304, a nil body, the headers of the response and no error; on status 401 it
returns a nil body and the error `ErrorUnauthorized`. One request is enough: the
result is reached for every positive bound. -/
theorem get_short_circuits {E : Type} (env : Env E) (client : Client) (fuel : Nat)
    (hist : List Request) (path : String) (req : Request) (res : Response)
    (hreq : getReq env client path = .ok req)
    (hres : env.httpDo hist req = .ok res) :
    (res.StatusCode = 304 →
      get env client (fuel + 1) hist path
        = (some ⟨304, none, some res.Header, none⟩, hist ++ [req])) ∧
    (res.StatusCode = 401 →
      get env client (fuel + 1) hist path
        = (some ⟨401, none, none, some (.WithStack .ErrorUnauthorized)⟩, hist ++ [req])) := by
  constructor <;> intro hs <;> simp [get, hreq, hres, hs]

/-- Witness of C7: a 401 whose body cannot even be read gives `ErrorUnauthorized`. -/
theorem get_short_circuits_witness :
    get
        (sampleEnv (fun _ _ => .ok
          { StatusCode := 401, Header := Header.empty, Body := .error "unexpected EOF" }))
        basicClient 1 [] "/user"
      = (some ⟨401, none, none, some (.WithStack .ErrorUnauthorized)⟩,
          [userRequest "GET"
            [("Accept", ["application/json"]), ("Authorization", ["Basic dXNlcjpwYXNz"])]]) :=
  (get_short_circuits
    (sampleEnv (fun _ _ => .ok
      { StatusCode := 401, Header := Header.empty, Body := .error "unexpected EOF" }))
    basicClient 0 [] "/user"
    (userRequest "GET"
      [("Accept", ["application/json"]), ("Authorization", ["Basic dXNlcjpwYXNz"])])
    { StatusCode := 401, Header := Header.empty, Body := .error "unexpected EOF" }
    rfl rfl).2 rfl

/-- The redirect branch of `get` itself (lines 138-143): were `httpClient.Do` to hand
back a redirect with a location, `get` would call itself on the location as its new
path, and return the result of that call. -/
theorem get_follows_redirect {E : Type} (env : Env E) (client : Client) (fuel : Nat)
    (hist : List Request) (path : String) (req : Request) (res : Response)
    (hreq : getReq env client path = .ok req)
    (hres : env.httpDo hist req = .ok res)
    (hstatus : res.StatusCode = 301 ∨ res.StatusCode = 307 ∨ res.StatusCode = 302)
    (hloc : res.Header.Get "Location" ≠ "") :
    get env client (fuel + 1) hist path
      = get env client fuel (hist ++ [req]) (res.Header.Get "Location") := by
  have h304 : res.StatusCode ≠ 304 := by
    rcases hstatus with h | h | h <;> rw [h] <;> decide
  simp [get, hreq, hres, h304, hstatus, hloc]

/-! ## `postForm` -/

/-- Above 400 `postForm` returns the decoded error body as its error when the body
decodes, and no error when it does not; the status and the raw body are returned in
both cases. -/
theorem postForm_above_400 {E : Type} (env : Env E) (consumer : Consumer)
    (hist : List Request) (url : String) (data headers : Values)
    (req : Request) (res : Response) (resBody : String)
    (hreq : postFormReq env consumer url data headers = .ok req)
    (hres : env.httpDo hist req = .ok res)
    (hbody : res.Body = .ok resBody)
    (hstatus : res.StatusCode > 400) :
    (postForm env consumer hist url data headers).1
      = ⟨res.StatusCode, some resBody, (env.unmarshalError resBody).map Err.api⟩ := by
  cases hd : env.unmarshalError resBody <;>
    simp [postForm, hreq, hres, hbody, hstatus, hd]

/-- At 400 and below `postForm` returns no error, without decoding the body. -/
theorem postForm_upto_400 {E : Type} (env : Env E) (consumer : Consumer)
    (hist : List Request) (url : String) (data headers : Values)
    (req : Request) (res : Response) (resBody : String)
    (hreq : postFormReq env consumer url data headers = .ok req)
    (hres : env.httpDo hist req = .ok res)
    (hbody : res.Body = .ok resBody)
    (hstatus : res.StatusCode ≤ 400) :
    (postForm env consumer hist url data headers).1
      = ⟨res.StatusCode, some resBody, none⟩ := by
  have h : ¬ res.StatusCode > 400 := not_lt.mpr hstatus
  simp [postForm, hreq, hres, hbody, h]

/-- C8, at the failing input. The token endpoint answers 400 with an error body that
decodes: `postForm` returns the status and the body with no error. The same body
under status 401 is returned as the error. -/
theorem postForm_status_400_no_error :
    (postForm (sampleEnv (constServer 400 "\x7b\"error\":\"invalid_grant\"\x7d"))
        ⟨"id", "secret"⟩ [] "https://bitbucket.org/site/oauth2/access_token"
        [("grant_type", ["refresh_token"])] []).1
      = ⟨400, some "\x7b\"error\":\"invalid_grant\"\x7d", none⟩ ∧
    sampleUnmarshalError "\x7b\"error\":\"invalid_grant\"\x7d"
      = some "\x7b\"error\":\"invalid_grant\"\x7d" ∧
    (postForm (sampleEnv (constServer 401 "\x7b\"error\":\"invalid_grant\"\x7d"))
        ⟨"id", "secret"⟩ [] "https://bitbucket.org/site/oauth2/access_token"
        [("grant_type", ["refresh_token"])] []).1
      = ⟨401, some "\x7b\"error\":\"invalid_grant\"\x7d",
          some (.api "\x7b\"error\":\"invalid_grant\"\x7d")⟩ := by
  refine ⟨?_, ?_, ?_⟩ <;> decide

/-! ## Headers of the requests handed to the transport -/

/-- A successful `setAuth` changes nothing but the `Authorization` header. -/
theorem setAuth_ok {E : Type} (client : Client) (req req1 : Request)
    (h : (setAuth client req : Option (Err E) × Request) = (none, req1)) :
    req1.Method = req.Method ∧
    ∀ key, canonicalMIMEHeaderKey key ≠ "Authorization" →
      req1.Header.Values key = req.Header.Values key := by
  have hk : canonicalMIMEHeaderKey "Authorization" = "Authorization" := by decide
  unfold setAuth at h
  split at h
  · simp only [Prod.mk.injEq, true_and] at h
    subst h
    refine ⟨rfl, fun key hne => ?_⟩
    exact Header.Values_Set_ne _ _ _ _ (by rw [hk]; exact hne)
  · split at h
    · simp only [Prod.mk.injEq, true_and] at h
      subst h
      refine ⟨rfl, fun key hne => ?_⟩
      exact Header.Values_Add_ne _ _ _ _ (by rw [hk]; exact hne)
    · simp at h

theorem postReq_headers {E : Type} (env : Env E) (client : Client)
    (path bodyType : String) (body : Option Reader) (req : Request)
    (h : postReq env client path bodyType body = .ok req) :
    req.Header.Values "Accept" = ["application/json"] ∧
    req.Header.Values "Content-Type" = [bodyType] := by
  unfold postReq at h
  cases h1 : NewRequest env "POST" (env.rootURL ++ path) body with
  | error e => simp [h1] at h
  | ok r =>
    simp only [h1] at h
    split at h
    · simp at h
    · rename_i r1 hs
      simp only [Except.ok.injEq] at h
      subst h
      have hv := (setAuth_ok client _ _ hs).2
      rw [hv "Accept" (by decide), hv "Content-Type" (by decide)]
      constructor
      · rw [Header.Values_Add_same, Header.Values_Set_ne _ _ _ _ (by decide)]
        simp only [NewRequest] at h1
        split at h1
        · simp at h1
        · simp only [Except.ok.injEq] at h1
          subst h1
          rfl
      · rw [Header.Values_Add_ne _ _ _ _ (by decide), Header.Values_Set_same]

theorem putReq_headers {E : Type} (env : Env E) (client : Client)
    (path bodyType : String) (body : Option Reader) (req : Request)
    (h : putReq env client path bodyType body = .ok req) :
    req.Header.Values "Accept" = ["application/json"] ∧
    req.Header.Values "Content-Type" = [bodyType] := by
  unfold putReq at h
  cases h1 : NewRequest env "PUT" (env.rootURL ++ path) body with
  | error e => simp [h1] at h
  | ok r =>
    simp only [h1] at h
    split at h
    · simp at h
    · rename_i r1 hs
      simp only [Except.ok.injEq] at h
      subst h
      have hv := (setAuth_ok client _ _ hs).2
      rw [hv "Accept" (by decide), hv "Content-Type" (by decide)]
      constructor
      · rw [Header.Values_Add_same, Header.Values_Set_ne _ _ _ _ (by decide)]
        simp only [NewRequest] at h1
        split at h1
        · simp at h1
        · simp only [Except.ok.injEq] at h1
          subst h1
          rfl
      · rw [Header.Values_Add_ne _ _ _ _ (by decide), Header.Values_Set_same]

theorem getReq_headers {E : Type} (env : Env E) (client : Client) (path : String)
    (req : Request) (h : getReq env client path = .ok req) :
    req.Header.Values "Accept" = ["application/json"] := by
  unfold getReq at h
  split at h
  · simp at h
  · rename_i callURL _
    cases h1 : NewRequest env "GET" (env.urlString callURL) none with
    | error e => simp [h1] at h
    | ok r =>
      simp only [h1] at h
      split at h
      · simp at h
      · rename_i r1 hs
        simp only [Except.ok.injEq] at h
        subst h
        rw [(setAuth_ok client _ _ hs).2 "Accept" (by decide), Header.Values_Add_same]
        simp only [NewRequest] at h1
        split at h1
        · simp at h1
        · simp only [Except.ok.injEq] at h1
          subst h1
          rfl

/-- Every request `get` sends, redirects included, carries
`Accept: application/json`. -/
theorem get_sent_accept {E : Type} (env : Env E) (client : Client) (fuel : Nat) :
    ∀ (hist : List Request) (path : String),
      ∃ sent, (get env client fuel hist path).2 = hist ++ sent ∧
        ∀ r ∈ sent, r.Header.Values "Accept" = ["application/json"] := by
  induction fuel with
  | zero => intro hist path; exact ⟨[], by simp [get], by simp⟩
  | succ n ih =>
    intro hist path
    cases hreq : getReq env client path with
    | error e => exact ⟨[], by simp [get, hreq], by simp⟩
    | ok req =>
      have hacc := getReq_headers env client path req hreq
      cases hres : env.httpDo hist req with
      | error e => exact ⟨[req], by simp [get, hreq, hres], by simpa using hacc⟩
      | ok res =>
        by_cases hredir : res.StatusCode ≠ 304 ∧
            (res.StatusCode = 301 ∨ res.StatusCode = 307 ∨ res.StatusCode = 302) ∧
            res.Header.Get "Location" ≠ ""
        · obtain ⟨sent, hs, hall⟩ := ih (hist ++ [req]) (res.Header.Get "Location")
          refine ⟨req :: sent, ?_, ?_⟩
          · rw [get_follows_redirect env client n hist path req res hreq hres
              hredir.2.1 hredir.2.2, hs]
            simp
          · intro r hr
            rcases List.mem_cons.mp hr with h | h
            · rw [h]; exact hacc
            · exact hall r h
        · refine ⟨[req], ?_, by simpa using hacc⟩
          simp only [get, hreq, hres]
          split
          · rfl
          · split
            · rename_i h304 hloc
              exact absurd ⟨h304, hloc⟩ hredir
            · split
              · rfl
              · split <;> rfl

theorem doReq_headers {E : Type} (env : Env E) (client : Client) (method path : String)
    (params : Values) (values : String) (req : Request)
    (h : doReq env client method path params values = .ok req) :
    req.Header.Values "Accept" = [] ∧
    (method = "POST" ∨ method = "PUT" →
      req.Header.Values "Content-Type" = ["application/json"]) := by
  unfold doReq at h
  split at h
  · simp at h
  · rename_i uri _
    simp only at h
    split at h
    · simp at h
    · rename_i r1 hs
      obtain ⟨hm, hv⟩ := setAuth_ok client _ _ hs
      have hm1 : r1.Method = method := by
        rw [hm]; split <;> rfl
      have hacc : r1.Header.Values "Accept" = [] := by
        rw [hv "Accept" (by decide)]; split <;> rfl
      have hct : r1.Header.Values "Content-Type" = [] := by
        rw [hv "Content-Type" (by decide)]; split <;> rfl
      have hget : r1.Header.Get "Content-Type" = "" := by
        simp [Header.Get, hct]
      rw [hm1, hget] at h
      by_cases hpp : method = "POST" ∨ method = "PUT"
      · have hc : (method = "POST" ∨ method = "PUT") ∧ ("" : String).utf8ByteSize = 0 :=
          ⟨hpp, rfl⟩
        rw [if_pos hc] at h
        simp only [Except.ok.injEq] at h
        subst h
        refine ⟨?_, fun _ => Header.Values_Set_same _ _ _⟩
        show (r1.Header.Set "Content-Type" "application/json").Values "Accept" = []
        rw [Header.Values_Set_ne _ _ _ _ (by decide)]
        exact hacc
      · have hc : ¬ ((method = "POST" ∨ method = "PUT") ∧ ("" : String).utf8ByteSize = 0) :=
          fun hh => hpp hh.1
        rw [if_neg hc] at h
        simp only [Except.ok.injEq] at h
        subst h
        exact ⟨hacc, fun hh => absurd hh hpp⟩

/-- C9, at the failing input. The request that `do` hands to the transport for a GET
of `/user` carries no `Accept` header at all, while the request `get` sends for the
same path carries `Accept: application/json`. -/
theorem do_request_without_accept :
    (do_ (sampleEnv (constServer 200 "\x7b\"id\":42\x7d")) basicClient [] "GET" "" "/user"
        [] "" digitsUnmarshal 0).2
      = [userRequestOfDo "GET" [("Authorization", ["Basic dXNlcjpwYXNz"])]] ∧
    (userRequestOfDo "GET" [("Authorization", ["Basic dXNlcjpwYXNz"])]).Header.Values
        "Accept" = [] ∧
    (get (sampleEnv (constServer 200 "\x7b\"id\":42\x7d")) basicClient 1 [] "/user").2.map
        (fun r => r.Header.Values "Accept") = [["application/json"]] := by
  refine ⟨?_, ?_, ?_⟩ <;> decide

/-- C10, as amended. The request `do` hands to the transport for method POST or PUT
carries the single content type `application/json`; the request `post` or `put`
hands to the transport carries as its single content type exactly the `bodyType` it
was given, whatever that is. -/
theorem content_type_of_sent_request {E α : Type} (env : Env E) (client : Client)
    (hist : List Request) (method api path bodyType : String) (body : Option Reader)
    (opts : Option postOptions) (params : Values) (values : String)
    (unmarshal : String → α → Option String × α) (v : α) :
    (∀ req, (method = "POST" ∨ method = "PUT") →
      doReq env client method path params values = .ok req →
      (do_ env client hist method api path params values unmarshal v).2 = hist ++ [req] ∧
      req.Header.Values "Content-Type" = ["application/json"]) ∧
    (∀ req, postReq env client path bodyType body = .ok req →
      (post env client hist path bodyType body opts).2 = hist ++ [req] ∧
      req.Header.Values "Content-Type" = [bodyType]) ∧
    (∀ req, putReq env client path bodyType body = .ok req →
      (put env client hist path bodyType body opts).2 = hist ++ [req] ∧
      req.Header.Values "Content-Type" = [bodyType]) := by
  refine ⟨?_, ?_, ?_⟩
  · intro req hm hreq
    refine ⟨?_, (doReq_headers env client method path params values req hreq).2 hm⟩
    simp only [do_, hreq]
    cases env.httpDo hist req with
    | error e => rfl
    | ok resp =>
      simp only
      cases resp.Body with
      | error e => rfl
      | ok b =>
        simp only
        split
        · rfl
        · split
          · rfl
          · split
            · rfl
            · split <;> rfl
  · intro req hreq
    refine ⟨?_, (postReq_headers env client path bodyType body req hreq).2⟩
    simp only [post, hreq]
    cases env.httpDo hist req <;> rfl
  · intro req hreq
    refine ⟨?_, (putReq_headers env client path bodyType body req hreq).2⟩
    simp only [put, hreq]
    cases env.httpDo hist req <;> rfl

/-- Witness of C10 as amended: a `do` with method POST sends one request, with
`Content-Type: application/json`. -/
theorem content_type_of_sent_request_witness :
    (do_ (sampleEnv (constServer 200 "1")) basicClient [] "POST" "" "/user" [] ""
        digitsUnmarshal 0).2
      = [userRequestOfDo "POST"
          [("Authorization", ["Basic dXNlcjpwYXNz"]), ("Content-Type", ["application/json"])]] ∧
    (userRequestOfDo "POST"
        [("Authorization", ["Basic dXNlcjpwYXNz"]),
          ("Content-Type", ["application/json"])]).Header.Values "Content-Type"
      = ["application/json"] :=
  (content_type_of_sent_request (sampleEnv (constServer 200 "1")) basicClient [] "POST" ""
    "/user" "" none none [] "" digitsUnmarshal 0).1
    (userRequestOfDo "POST"
      [("Authorization", ["Basic dXNlcjpwYXNz"]), ("Content-Type", ["application/json"])])
    (Or.inl rfl) rfl

/-- Counterexample to C10 as stated. A `post` with an empty `bodyType` hands the
transport a request whose only content type is the empty string, not
`application/json`; `put` does the same. -/
theorem post_empty_bodyType_not_json :
    (post (sampleEnv (constServer 200 "")) basicClient [] "/user" ""
        (some ⟨"x", false⟩) none).2.map
        (fun r => r.Header.Values "Content-Type") = [[""]] ∧
    (put (sampleEnv (constServer 200 "")) basicClient [] "/user" ""
        (some ⟨"x", false⟩) none).2.map
        (fun r => r.Header.Values "Content-Type") = [[""]] ∧
    ¬ (∀ r ∈ (post (sampleEnv (constServer 200 "")) basicClient [] "/user" ""
          (some ⟨"x", false⟩) none).2,
        "application/json" ∈ r.Header.Values "Content-Type") := by
  refine ⟨?_, ?_, ?_⟩ <;> decide

/-! ## Redirects under the shared client -/

end Bitbucketcloud
